import Mathlib

/-!
Shallow embedding of the `mtc` batch media-transcoding dispatcher
(`src/main.rs`) and proofs about its specified behaviour.

The embedding models:
* Rust `str::replace` as left-to-right, non-overlapping literal replacement
  on character lists (`replaceL` / `replaceSub`);
* the `std::path::Path` accessors `file_name`, `file_stem`, `extension`,
  `parent` on slash-separated path strings;
* the per-job pipeline of the worker closure in `main` (template expansion,
  output-directory creation, subprocess invocation and outcome
  classification), with `Option` as the panic monad: `none` models a Rust
  panic from `Option::unwrap`;
* the shared work queue and worker lifecycle as a small-step transition
  system: one step is one mutex-guarded `Vec::pop` or one worker observing
  the empty queue and terminating.
-/

namespace Mtc

/-- Fuel-based scan for Rust `str::replace`: replace each non-overlapping
occurrence of `pat` by `rep`, left to right, skipping past a match. One
unit of fuel is spent per step, and a nonempty match consumes at least
one character, so `s.length` fuel always suffices. -/
def replaceAux (pat rep : List Char) : Nat → List Char → List Char
  | _, [] => []
  | 0, s => s
  | n + 1, c :: rest =>
    if pat ≠ [] ∧ pat <+: (c :: rest) then
      rep ++ replaceAux pat rep n ((c :: rest).drop pat.length)
    else
      c :: replaceAux pat rep n rest

/-- Rust `str::replace` on character lists. -/
def replaceL (pat rep s : List Char) : List Char :=
  replaceAux pat rep s.length s

/-- Rust `String::replace` on strings, via `replaceL`. -/
def replaceSub (s pat rep : String) : String :=
  String.mk (replaceL pat.toList rep.toList s.toList)

/-- Split a character list on a separator character; mirrors Rust
`str::split` (and `String.splitOn` for a one-character pattern): the empty
input yields one empty field, adjacent separators yield empty fields. -/
def splitOnChar (sep : Char) : List Char → List (List Char)
  | [] => [[]]
  | c :: rest =>
    if c = sep then
      [] :: splitOnChar sep rest
    else
      match splitOnChar sep rest with
      | [] => [[c]]
      | h :: t => (c :: h) :: t

/-- Rust `str::split(' ')` on strings. -/
def splitSpaces (s : String) : List String :=
  (splitOnChar ' ' s.toList).map String.mk

/-- Join path components back with `/` separators. -/
def joinSlash : List String → String
  | [] => ""
  | [x] => x
  | x :: rest => x ++ "/" ++ joinSlash rest

/-- Path components of a slash-separated path string; the empty string has
no components (models `Path::components` on relative paths). -/
def components (s : String) : List String :=
  if s = "" then [] else (splitOnChar '/' s.toList).map String.mk

/-- Rust `Path::file_name`: the final path component, `none` when the path
has no final normal component (empty path, `.` or `..`). -/
def fileName (s : String) : Option String :=
  match (components s).getLast? with
  | none => none
  | some last => if last = "" ∨ last = "." ∨ last = ".." then none else some last

/-- Split a file name at its last dot: `some (before, after)` when a dot
exists, preferring the rightmost one. -/
def splitAtLastDot : List Char → Option (List Char × List Char)
  | [] => none
  | c :: rest =>
    match splitAtLastDot rest with
    | some (b, a) => some (c :: b, a)
    | none => if c = '.' then some ([], rest) else none

/-- Rust `Path::extension`: the part of the file name after the last dot,
`none` when there is no dot or the only dot starts the name. -/
def extension (s : String) : Option String :=
  match fileName s with
  | none => none
  | some n =>
    match splitAtLastDot n.toList with
    | some (b, a) => if b = [] then none else some (String.mk a)
    | none => none

/-- Rust `Path::file_stem`: the file name up to its last dot (the whole
name when there is no dot or the only dot starts the name). -/
def fileStem (s : String) : Option String :=
  match fileName s with
  | none => none
  | some n =>
    match splitAtLastDot n.toList with
    | some (b, _) => if b = [] then some n else some (String.mk b)
    | none => some n

/-- Rust `Path::parent`: the path with its final component removed, as a
string (`some ""` for a single-component path, `none` for the empty path). -/
def parent (s : String) : Option String :=
  match components s with
  | [] => none
  | cs => some (joinSlash cs.dropLast)

/-- The `\x7b\x7bext\x7d\x7d` placeholder string used by `main.rs`. -/
def phExt : String := "\x7b\x7bext\x7d\x7d"

/-- The `\x7b\x7bname\x7d\x7d` placeholder string used by `main.rs`. -/
def phName : String := "\x7b\x7bname\x7d\x7d"

/-- The `\x7b\x7bdir\x7d\x7d` placeholder string used by `main.rs`. -/
def phDir : String := "\x7b\x7bdir\x7d\x7d"

/-- The `\x7b\x7bparent\x7d\x7d` placeholder string used by `main.rs`. -/
def phParent : String := "\x7b\x7bparent\x7d\x7d"

/-- The replace chain of `main.rs` computing `final_file_name`:
`output.replace("\x7b\x7bext\x7d\x7d", path.extension().unwrap()...)` then
`name`, `dir`, `parent` in that order. The extension and stem are
unwrapped unconditionally, so a path lacking either panics (`none`) even
when the template does not mention the placeholder; `dir` and `parent`
use `unwrap_or` fallbacks and never panic. -/
def expandTemplate (output : String) (path : String) : Option String :=
  match extension path, fileStem path with
  | some e, some st =>
    let step1 := replaceSub output phExt e
    let step2 := replaceSub step1 phName st
    let d := (parent path).getD ""
    let step3 := replaceSub step2 phDir d
    let par := (fileName ((parent path).getD "")).getD ""
    some (replaceSub step3 phParent par)
  | _, _ => none

/-- The immutable per-run configuration shared by all workers (the fields
of `CmdArgs` a job reads). -/
structure Config where
  ffmpegOptions : String
  output : String
deriving DecidableEq, Repr

/-- Captured output of one external-tool run (`std::process::Output`). -/
structure ToolOutput where
  success : Bool
  stderrText : String
deriving DecidableEq, Repr

/-- The filesystem and subprocess responses one job observes:
whether `final_path_parent.exists()` holds, whether `create_dir_all`
succeeds when called, and the result of `Command::output()` (`none` when
the tool cannot be launched at all). -/
structure JobEnv where
  dirExists : Bool
  createDirOk : Bool
  toolResult : Option ToolOutput
deriving DecidableEq, Repr

/-- Terminal classification of one job (spec `JobOutcome`). -/
inductive JobOutcome where
  | success (outPath : String)
  | toolFailure (stderrText : String)
  | toolUnavailable
deriving DecidableEq, Repr

/-- What one job did, as observable effects: whether directory creation
was attempted and whether it failed (and was reported), the argument
vector passed to the tool when launch was attempted, whether the child's
stdout/stderr were captured rather than inherited, and the outcome. -/
structure JobTrace where
  dirCreateAttempted : Bool
  dirCreateFailed : Bool
  toolProgram : String
  toolInvocation : Option (List String)
  stdoutCaptured : Bool
  stderrCaptured : Bool
  outcome : JobOutcome
deriving DecidableEq, Repr

/-- The worker's per-path body in `main.rs`, with `none` modelling a panic
from `Option::unwrap`. Mirrors the source order: split the option string
on single spaces, expand the output template (unwrapping extension and
stem), take `Path::new(&final_file_name).parent().unwrap()`, create the
directory only when it does not exist (a failure is reported but the code
falls through), then always build and run
`ffmpeg -i <input> <options...> <final_file_name>` with piped stdout and
stderr, classifying the result in three ways. -/
def processPath (cfg : Config) (env : JobEnv) (path : String) : Option JobTrace :=
  let splitOptions := splitSpaces cfg.ffmpegOptions
  match expandTemplate cfg.output path with
  | none => none
  | some finalFileName =>
    match parent finalFileName with
    | none => none
    | some _finalPathParent =>
      let dirCreateAttempted := !env.dirExists
      let dirCreateFailed := dirCreateAttempted && !env.createDirOk
      let argv := ["-i", path] ++ splitOptions ++ [finalFileName]
      let outcome :=
        match env.toolResult with
        | none => JobOutcome.toolUnavailable
        | some out =>
          if out.success then JobOutcome.success finalFileName
          else JobOutcome.toolFailure out.stderrText
      some {
        dirCreateAttempted := dirCreateAttempted
        dirCreateFailed := dirCreateFailed
        toolProgram := "ffmpeg"
        toolInvocation := some argv
        stdoutCaptured := true
        stderrCaptured := true
        outcome := outcome
      }

/-- A worker draining its share of the queue sequentially: each path is
processed with the environment it observes; `none` models the first panic
killing that worker's thread (the remaining paths of the run are then
unaccounted for, and the join on that handle panics in turn). -/
def runJobs (cfg : Config) (envs : String → JobEnv) : List String → Option (List JobTrace)
  | [] => some []
  | p :: rest =>
    match processPath cfg (envs p) p with
    | none => none
    | some t =>
      match runJobs cfg envs rest with
      | none => none
      | some ts => some (t :: ts)

/-- Result of the startup glob call: either a pattern error (`glob`
returned `Err`) or the iterator's entries, each a per-entry `Result`. -/
inductive GlobResult where
  | patternErr (msg : String)
  | ok (entries : List (Except String String))
deriving Repr

/-- Path discovery in `main.rs`:
`glob(...).filter_map(Result::ok).collect()` on success, and
`eprintln + exit(1)` on a malformed pattern, modelled as `Except.error`
carrying the diagnostic and the exit code. -/
def discover : GlobResult → Except (String × Nat) (List String)
  | .patternErr msg => .error (msg, 1)
  | .ok entries => .ok (entries.filterMap Except.toOption)

/-- How the whole process ends. -/
inductive MainResult where
  | fatal (msg : String) (code : Nat)
  | panicked
  | completed (traces : List JobTrace)
deriving DecidableEq, Repr

/-- Whether the run reached the join barrier and exited normally. -/
def MainResult.isCompleted : MainResult → Bool
  | .completed _ => true
  | _ => false

instance {ε α : Type} [DecidableEq ε] [DecidableEq α] : DecidableEq (Except ε α) :=
  fun a b =>
    match a, b with
    | .ok x, .ok y => decidable_of_iff (x = y) (by simp)
    | .error x, .error y => decidable_of_iff (x = y) (by simp)
    | .ok _, .error _ => isFalse (by simp)
    | .error _, .ok _ => isFalse (by simp)

/-- The process-level shape of `main`: a malformed glob pattern exits
nonzero before any worker is spawned; otherwise workers drain the queue
and `main` joins every handle with `.unwrap()`, so a worker panic aborts
the process (`panicked`) while any combination of handled per-job
failures still ends in `completed` (exit code 0). -/
def mainResult (globRes : GlobResult) (cfg : Config) (envs : String → JobEnv) :
    MainResult :=
  match discover globRes with
  | .error (msg, code) => .fatal msg code
  | .ok paths =>
    match runJobs cfg envs paths with
    | none => .panicked
    | some traces => .completed traces

/-- A filesystem for the directory-creation claims: the set of existing
directories, and the directories the OS refuses to create (any other
missing directory is creatable). -/
structure FS where
  dirs : List String
  refused : List String
deriving DecidableEq, Repr

/-- Modelled from the spec: `std::fs::create_dir_all` (external interface)
returns `Ok` when the directory already exists — an already-exists
outcome, including one produced concurrently, is not an error — and
otherwise creates it unless the OS refuses. -/
def createDirAll (fs : FS) (p : String) : FS × Bool :=
  if p ∈ fs.dirs then (fs, true)
  else if p ∈ fs.refused then (fs, false)
  else ({ fs with dirs := p :: fs.dirs }, true)

/-- The directory step of the worker body:
`if !final_path_parent.exists() { create_dir_all(final_path_parent) }`. -/
def ensureDir (fs : FS) (p : String) : FS × Bool :=
  if p ∈ fs.dirs then (fs, true) else createDirAll fs p

/-- Lifecycle state of one spawned worker thread. -/
inductive WStatus where
  | running
  | terminated
deriving DecidableEq, Repr

/-- Global state of the dispatcher run: the shared mutex-guarded
`Vec<PathBuf>` queue, the paths taken so far in pop order, and the status
of each spawned worker. -/
structure RunState where
  queue : List String
  taken : List String
  workers : List WStatus
deriving DecidableEq, Repr

/-- The state every run starts in: the discovered paths fill the queue,
nothing is taken, and the dispatcher has spawned `n` running workers. -/
def initState (paths : List String) (n : Nat) : RunState :=
  { queue := paths, taken := [], workers := List.replicate n .running }

/-- One atomic step of the system. Holding the mutex, a running worker
either pops the last queue element (`Vec::pop`) and processes it, or
observes the empty queue (`pop` returned `None`) and terminates. A
terminated worker takes no further steps. -/
inductive Step : RunState → RunState → Prop where
  | pop (s : RunState) (i : Nat) (hi : i < s.workers.length)
      (hw : s.workers.get ⟨i, hi⟩ = .running) (hq : s.queue ≠ []) :
      Step s { queue := s.queue.dropLast,
               taken := s.taken ++ [s.queue.getLast hq],
               workers := s.workers }
  | finish (s : RunState) (i : Nat) (hi : i < s.workers.length)
      (hw : s.workers.get ⟨i, hi⟩ = .running) (hq : s.queue = []) :
      Step s { queue := s.queue, taken := s.taken,
               workers := s.workers.set i .terminated }

/-- The states a run over `paths` with `n` workers can reach. -/
def Reachable (paths : List String) (n : Nat) (s : RunState) : Prop :=
  Relation.ReflTransGen Step (initState paths n) s

/-- The join barrier in `main`: every worker handle has been joined, which
requires every worker to have terminated. -/
def allTerminated (s : RunState) : Prop :=
  ∀ w ∈ s.workers, w = WStatus.terminated

theorem step_queue_append_taken {s t : RunState}
    (h : Step s t) : t.queue ++ t.taken.reverse = s.queue ++ s.taken.reverse := by
  cases h with
  | pop i hi hw hq =>
    have h0 : s.queue.dropLast ++ [s.queue.getLast hq] = s.queue :=
      List.dropLast_append_getLast hq
    calc s.queue.dropLast ++ (s.taken ++ [s.queue.getLast hq]).reverse
        = (s.queue.dropLast ++ [s.queue.getLast hq]) ++ s.taken.reverse := by simp
      _ = s.queue ++ s.taken.reverse := by rw [h0]
  | finish i hi hw hq => rfl

theorem step_workers_length {s t : RunState}
    (h : Step s t) : t.workers.length = s.workers.length := by
  cases h with
  | pop i hi hw hq => rfl
  | finish i hi hw hq => simp

theorem step_empty_stays_empty {s t : RunState}
    (h : Step s t) (hq : s.queue = []) : t.queue = [] := by
  cases h with
  | pop i hi hw hq' => exact absurd hq hq'
  | finish i hi hw hq' => exact hq

theorem step_terminated_imp_empty {s t : RunState}
    (h : Step s t) (ih : (∃ w ∈ s.workers, w = WStatus.terminated) → s.queue = [])
    (hw : ∃ w ∈ t.workers, w = WStatus.terminated) : t.queue = [] := by
  cases h with
  | pop i hi hw' hq => exact absurd (ih hw) hq
  | finish i hi hw' hq => exact hq

/-- The trace of processing `x/y.mp4` with options `-c:v libx264`, output
template `out/\x7b\x7bname\x7d\x7d.\x7b\x7bext\x7d\x7d` and a tool run
that exits nonzero with stderr `boom`. -/
def sampleFailTrace : JobTrace :=
  { dirCreateAttempted := false, dirCreateFailed := false,
    toolProgram := "ffmpeg",
    toolInvocation := some ["-i", "x/y.mp4", "-c:v", "libx264", "out/y.mp4"],
    stdoutCaptured := true, stderrCaptured := true,
    outcome := JobOutcome.toolFailure "boom" }

/-- The trace of processing `a/b/c.mp4` with options `-c:v libx264`, output
template `out/\x7b\x7bname\x7d\x7d.\x7b\x7bext\x7d\x7d` and a successful
tool run. -/
def sampleShapeTrace : JobTrace :=
  { dirCreateAttempted := false, dirCreateFailed := false,
    toolProgram := "ffmpeg",
    toolInvocation := some ["-i", "a/b/c.mp4", "-c:v", "libx264", "out/c.mp4"],
    stdoutCaptured := true, stderrCaptured := true,
    outcome := JobOutcome.success "out/c.mp4" }

theorem occurs_cons {pat rest : List Char} (c : Char) (h : pat <:+: rest) :
    pat <:+: c :: rest := by
  obtain ⟨u, v, huv⟩ := h
  exact ⟨c :: u, v, by rw [List.cons_append, List.cons_append, huv]⟩

theorem occurs_head {pat s : List Char} (h : pat <+: s) : pat <:+: s := by
  obtain ⟨u, hu⟩ := h
  exact ⟨[], u, by rw [List.nil_append, hu]⟩

theorem replaceAux_no_occurrence (pat rep : List Char) :
    ∀ (n : Nat) (s : List Char), ¬ pat <:+: s → replaceAux pat rep n s = s := by
  intro n
  induction n with
  | zero => intro s h; cases s <;> rfl
  | succ n ih =>
    intro s h
    cases s with
    | nil => rfl
    | cons c rest =>
      have hnp : ¬ (pat ≠ [] ∧ pat <+: (c :: rest)) := by
        rintro ⟨-, hpre⟩
        exact h (occurs_head hpre)
      rw [replaceAux, if_neg hnp, ih rest (fun hi => h (occurs_cons c hi))]

theorem replaceSub_no_occurrence (s pat rep : String)
    (h : ¬ pat.toList <:+: s.toList) : replaceSub s pat rep = s := by
  unfold replaceSub replaceL
  rw [replaceAux_no_occurrence pat.toList rep.toList s.toList.length s.toList h]
  cases s
  rfl

theorem count_filterMap_toOption (entries : List (Except String String)) (p : String) :
    (entries.filterMap Except.toOption).count p = entries.count (Except.ok p) := by
  induction entries with
  | nil => rfl
  | cons e es ih =>
    cases e with
    | ok q =>
      by_cases hq : q = p
      · subst hq
        simp [List.filterMap_cons, Except.toOption, List.count_cons, ih]
      · simp [List.filterMap_cons, Except.toOption, List.count_cons, ih, hq]
    | error m =>
      simp [List.filterMap_cons, Except.toOption, List.count_cons, ih]

theorem reachable_invariant (paths : List String) (n : Nat) (s : RunState)
    (h : Reachable paths n s) :
    s.queue ++ s.taken.reverse = paths ∧
    s.workers.length = n ∧
    ((∃ w ∈ s.workers, w = WStatus.terminated) → s.queue = []) := by
  induction h with
  | refl =>
    refine ⟨by simp [initState], by simp [initState], ?_⟩
    rintro ⟨w, hw, hterm⟩
    rw [List.eq_of_mem_replicate hw] at hterm
    exact absurd hterm (by simp)
  | tail hstep hlast ih =>
    rename_i b c
    obtain ⟨ih1, ih2, ih3⟩ := ih
    refine ⟨?_, ?_, ?_⟩
    · rw [step_queue_append_taken hlast, ih1]
    · rw [step_workers_length hlast, ih2]
    · exact step_terminated_imp_empty hlast ih3

theorem processPath_some {cfg : Config} {env : JobEnv} {path : String} {t : JobTrace}
    (h : processPath cfg env path = some t) :
    ∃ fn, expandTemplate cfg.output path = some fn ∧
      t = { dirCreateAttempted := !env.dirExists,
            dirCreateFailed := !env.dirExists && !env.createDirOk,
            toolProgram := "ffmpeg",
            toolInvocation := some (["-i", path] ++ splitSpaces cfg.ffmpegOptions ++ [fn]),
            stdoutCaptured := true,
            stderrCaptured := true,
            outcome := match env.toolResult with
              | none => JobOutcome.toolUnavailable
              | some out =>
                if out.success then JobOutcome.success fn
                else JobOutcome.toolFailure out.stderrText } := by
  cases hE : expandTemplate cfg.output path with
  | none => simp [processPath, hE] at h
  | some fn =>
    cases hP : parent fn with
    | none => simp [processPath, hE, hP] at h
    | some d =>
      refine ⟨fn, rfl, ?_⟩
      simp only [processPath, hE, hP, Option.some.injEq] at h
      exact h.symm

theorem runJobs_cons (cfg : Config) (envs : String → JobEnv) (path : String)
    (rest : List String) (t : JobTrace) (h : processPath cfg (envs path) path = some t) :
    runJobs cfg envs (path :: rest) = (runJobs cfg envs rest).map (t :: ·) := by
  cases hR : runJobs cfg envs rest <;> simp [runJobs, h, hR]

/-- C2 (code bug): the spec demands that an input path with no extension
fail the job with `MissingPathComponent` without crashing the process or
halting other jobs; the code instead calls `path.extension().unwrap()`,
which panics the worker thread (modelled as `none`), kills the rest of
that worker's batch, and — through `handle.join().unwrap()` — aborts the
process. At the failing input `a/b/c` the whole pipeline evaluates to a
panic, not a per-job failure. -/
theorem missing_extension_panics :
    extension "a/b/c" = none ∧
    expandTemplate "\x7b\x7bname\x7d\x7d.\x7b\x7bext\x7d\x7d" "a/b/c" = none ∧
    processPath ⟨"-c copy", "\x7b\x7bname\x7d\x7d.\x7b\x7bext\x7d\x7d"⟩
      ⟨true, true, some ⟨true, ""⟩⟩ "a/b/c" = none ∧
    runJobs ⟨"-c copy", "\x7b\x7bname\x7d\x7d.\x7b\x7bext\x7d\x7d"⟩
      (fun _ => ⟨true, true, some ⟨true, ""⟩⟩) ["a/b/c", "d/e.mp4"] = none := by
  refine ⟨rfl, rfl, rfl, rfl⟩

/-- C4 counterexample: the claim's placeholders are single-braced, but the
source replaces the literal double-braced strings, so for input
`a/b/c.mp4` the single-braced template is returned unchanged and the
expansion does not yield `a/b/c_out.mp4`. -/
theorem single_brace_template_not_substituted :
    expandTemplate "\x7bdir\x7d/\x7bname\x7d_out.\x7bext\x7d" "a/b/c.mp4"
      = some "\x7bdir\x7d/\x7bname\x7d_out.\x7bext\x7d" ∧
    expandTemplate "\x7bdir\x7d/\x7bname\x7d_out.\x7bext\x7d" "a/b/c.mp4"
      ≠ some "a/b/c_out.mp4" := by
  exact ⟨by decide, by decide⟩

/-- C4 (amended): template expansion substitutes the double-braced
placeholders by literal string replacement: for input `a/b/c.mp4` the
template `\x7b\x7bdir\x7d\x7d/\x7b\x7bname\x7d\x7d_out.\x7b\x7bext\x7d\x7d`
expands to `a/b/c_out.mp4`, the template
`\x7b\x7bparent\x7d\x7d/\x7b\x7bname\x7d\x7d.\x7b\x7bext\x7d\x7d` expands
to `b/c.mp4`, and a template containing none of the four placeholders is
returned unchanged (for any input path with an extension and a stem). -/
theorem template_expansion_correct :
    expandTemplate "\x7b\x7bdir\x7d\x7d/\x7b\x7bname\x7d\x7d_out.\x7b\x7bext\x7d\x7d"
      "a/b/c.mp4" = some "a/b/c_out.mp4" ∧
    expandTemplate "\x7b\x7bparent\x7d\x7d/\x7b\x7bname\x7d\x7d.\x7b\x7bext\x7d\x7d"
      "a/b/c.mp4" = some "b/c.mp4" ∧
    (∀ t path e st, extension path = some e → fileStem path = some st →
      ¬ phExt.toList <:+: t.toList → ¬ phName.toList <:+: t.toList →
      ¬ phDir.toList <:+: t.toList → ¬ phParent.toList <:+: t.toList →
      expandTemplate t path = some t) := by
  refine ⟨by decide, by decide, ?_⟩
  intro t path e st hE hS h1 h2 h3 h4
  have e1 : replaceSub t phExt e = t := replaceSub_no_occurrence t phExt e h1
  have e2 : replaceSub t phName st = t := replaceSub_no_occurrence t phName st h2
  have e3 : replaceSub t phDir ((parent path).getD "") = t :=
    replaceSub_no_occurrence t phDir _ h3
  have e4 : replaceSub t phParent ((fileName ((parent path).getD "")).getD "") = t :=
    replaceSub_no_occurrence t phParent _ h4
  unfold expandTemplate
  rw [hE, hS]
  simp only [e1, e2, e3, e4]

/-- C4 witness: a placeholder-free template passes through expansion
unchanged on a concrete input. -/
theorem template_expansion_correct_witness :
    expandTemplate "plain_out.mp4" "x/y.mkv" = some "plain_out.mp4" :=
  template_expansion_correct.2.2 "plain_out.mp4" "x/y.mkv" "mkv" "y"
    (by decide) (by decide) (by decide) (by decide) (by decide) (by decide)

/-- C3 counterexample: a job whose output-directory creation fails still
launches the external tool — the source reports the error and falls
through to `Command::new("ffmpeg")` — contradicting the claim that the
tool is never launched for that job. -/
theorem dir_failure_tool_still_launched :
    (processPath ⟨"-c copy", "out/\x7b\x7bname\x7d\x7d.\x7b\x7bext\x7d\x7d"⟩
        ⟨false, false, some ⟨true, ""⟩⟩ "a/b.mp4").map
      (fun t => (t.dirCreateFailed, t.toolInvocation.isSome)) = some (true, true) := by
  decide

/-- C3 (amended): for every job whose output-directory creation fails, the
failure is reported for that job and the worker continues with the next
path, but the job is not aborted: the external-tool invocation is still
attempted. -/
theorem dir_failure_reported_job_continues (cfg : Config) (env : JobEnv)
    (path : String) (t : JobTrace) (h : processPath cfg env path = some t)
    (hf : t.dirCreateFailed = true) :
    t.dirCreateAttempted = true ∧
    t.toolInvocation.isSome = true ∧
    (∀ envs rest, envs path = env →
      runJobs cfg envs (path :: rest) = (runJobs cfg envs rest).map (t :: ·)) := by
  obtain ⟨fn, hE, ht⟩ := processPath_some h
  subst ht
  refine ⟨?_, by simp, ?_⟩
  · simp only at hf
    exact Bool.and_elim_left hf
  · intro envs rest he
    exact runJobs_cons cfg envs path rest _ (by rw [he]; exact h)

/-- C3 witness: a concrete job with a failing directory creation still
carries a tool invocation and the batch continues past it. -/
theorem dir_failure_reported_job_continues_witness :
    JobTrace.dirCreateAttempted
      { dirCreateAttempted := true, dirCreateFailed := true,
        toolProgram := "ffmpeg",
        toolInvocation := some ["-i", "a/b.mp4", "-c", "copy", "out/b.mp4"],
        stdoutCaptured := true, stderrCaptured := true,
        outcome := JobOutcome.success "out/b.mp4" } = true ∧
    (JobTrace.toolInvocation
      { dirCreateAttempted := true, dirCreateFailed := true,
        toolProgram := "ffmpeg",
        toolInvocation := some ["-i", "a/b.mp4", "-c", "copy", "out/b.mp4"],
        stdoutCaptured := true, stderrCaptured := true,
        outcome := JobOutcome.success "out/b.mp4" }).isSome = true := by
  have h := dir_failure_reported_job_continues
    ⟨"-c copy", "out/\x7b\x7bname\x7d\x7d.\x7b\x7bext\x7d\x7d"⟩
    ⟨false, false, some ⟨true, ""⟩⟩ "a/b.mp4"
    { dirCreateAttempted := true, dirCreateFailed := true,
      toolProgram := "ffmpeg",
      toolInvocation := some ["-i", "a/b.mp4", "-c", "copy", "out/b.mp4"],
      stdoutCaptured := true, stderrCaptured := true,
      outcome := JobOutcome.success "out/b.mp4" }
    (by decide) (by decide)
  exact ⟨h.1, h.2.1⟩

/-- C1 (confirmed): for every initial path list and worker count at least
one, when the join barrier is reached (all workers terminated) the
multiset of paths taken from the shared queue equals the initial multiset
(each path exactly once: distinct inputs are never taken twice), the
queue is empty, and an empty queue never becomes non-empty again. -/
theorem work_queue_exhaustive_exclusive (paths : List String) (n : Nat)
    (hn : 1 ≤ n) (s : RunState) (hr : Reachable paths n s)
    (ht : allTerminated s) :
    Multiset.ofList s.taken = Multiset.ofList paths ∧
    s.queue = [] ∧
    (paths.Nodup → s.taken.Nodup) ∧
    (∀ u v : RunState, Step u v → u.queue = [] → v.queue = []) := by
  obtain ⟨h1, h2, h3⟩ := reachable_invariant paths n s hr
  have hpos : 0 < s.workers.length := by omega
  obtain ⟨w, hwmem⟩ := List.exists_mem_of_length_pos hpos
  have hq : s.queue = [] := h3 ⟨w, hwmem, ht w hwmem⟩
  have htaken : s.taken.reverse = paths := by
    rw [hq] at h1
    simpa using h1
  refine ⟨?_, hq, ?_, fun u v hstep hqe => step_empty_stays_empty hstep hqe⟩
  · rw [← htaken]
    exact (Multiset.coe_reverse s.taken).symm
  · intro hnd
    rw [← htaken] at hnd
    exact List.nodup_reverse.mp hnd

/-- C1 witness: a concrete one-worker run over the queue `[a, b]` pops
`b` then `a`, terminates, and satisfies the exhaustiveness conclusion. -/
theorem work_queue_exhaustive_exclusive_witness :
    Multiset.ofList (RunState.taken ⟨[], ["b", "a"], [WStatus.terminated]⟩)
      = Multiset.ofList ["a", "b"] ∧
    RunState.queue ⟨[], ["b", "a"], [WStatus.terminated]⟩ = [] ∧
    (List.Nodup ["a", "b"] →
      List.Nodup (RunState.taken ⟨[], ["b", "a"], [WStatus.terminated]⟩)) ∧
    (∀ u v : RunState, Step u v → u.queue = [] → v.queue = []) := by
  have h1 : Step (initState ["a", "b"] 1) ⟨["a"], ["b"], [WStatus.running]⟩ :=
    Step.pop (initState ["a", "b"] 1) 0 (by decide) (by decide) (by decide)
  have h2 : Step ⟨["a"], ["b"], [WStatus.running]⟩ ⟨[], ["b", "a"], [WStatus.running]⟩ :=
    Step.pop ⟨["a"], ["b"], [WStatus.running]⟩ 0 (by decide) (by decide) (by decide)
  have h3 : Step ⟨[], ["b", "a"], [WStatus.running]⟩ ⟨[], ["b", "a"], [WStatus.terminated]⟩ :=
    Step.finish ⟨[], ["b", "a"], [WStatus.running]⟩ 0 (by decide) (by decide) rfl
  have hr : Reachable ["a", "b"] 1 ⟨[], ["b", "a"], [WStatus.terminated]⟩ :=
    Relation.ReflTransGen.head h1 (Relation.ReflTransGen.head h2
      (Relation.ReflTransGen.head h3 Relation.ReflTransGen.refl))
  exact work_queue_exhaustive_exclusive ["a", "b"] 1 (by decide) _ hr
    (fun w hw => List.mem_singleton.mp hw)

/-- C8 (confirmed): the dispatcher spawns exactly `thread_count` workers
sharing the single queue, a completed run (join barrier) means every one
of those workers reached `Terminated`, and with zero workers the run
does nothing: the initial state is the only reachable state, so the
queue is never drained. -/
theorem dispatcher_spawns_and_joins (paths : List String) (n : Nat) :
    (initState paths n).workers.length = n ∧
    (initState paths n).queue = paths ∧
    (∀ s, Reachable paths n s → s.workers.length = n) ∧
    (∀ s, Reachable paths n s → allTerminated s →
      s.workers = List.replicate n WStatus.terminated) ∧
    (∀ s, Reachable paths 0 s → s = initState paths 0) := by
  refine ⟨by simp [initState], rfl, ?_, ?_, ?_⟩
  · exact fun s hr => (reachable_invariant paths n s hr).2.1
  · intro s hr ht
    exact List.eq_replicate_iff.mpr ⟨(reachable_invariant paths n s hr).2.1, ht⟩
  · intro s hr
    induction hr with
    | refl => rfl
    | tail hpre hstep ih =>
      rw [ih] at hstep
      cases hstep with
      | pop i hi hw hq => simp [initState] at hi
      | finish i hi hw hq => simp [initState] at hi

/-- C8 witness: three spawned workers give a worker list of length three,
and with zero workers the queue keeps its initial content untouched. -/
theorem dispatcher_spawns_and_joins_witness :
    (initState ["p", "q"] 3).workers.length = 3 ∧
    RunState.workers (initState ["p", "q"] 0) = [] ∧
    RunState.queue (initState ["p", "q"] 0) = ["p", "q"] := by
  have h0 := dispatcher_spawns_and_joins ["p", "q"] 0
  refine ⟨(dispatcher_spawns_and_joins ["p", "q"] 3).1, ?_, h0.2.1⟩
  have hlen := h0.2.2.1 (initState ["p", "q"] 0) Relation.ReflTransGen.refl
  simpa using hlen

/-- C5 (code bug): the fatal-at-startup half of the claim holds (a
malformed glob pattern exits nonzero with a diagnostic before any worker
runs, and runs whose per-job failures are of the handled kinds still
complete with exit code 0), but a per-job missing-extension failure
panics a worker, and the panic propagates through the dispatcher's
`join().unwrap()`, aborting the process abnormally — contradicting
"per-job failures of any kind never cause a nonzero process exit". -/
theorem perjob_panic_aborts_process :
    mainResult (GlobResult.ok [Except.ok "a/b/c", Except.ok "d/e.mp4"])
      ⟨"-c copy", "\x7b\x7bname\x7d\x7d.\x7b\x7bext\x7d\x7d"⟩
      (fun _ => ⟨true, true, some ⟨true, ""⟩⟩) = MainResult.panicked ∧
    mainResult (GlobResult.patternErr "Pattern syntax error")
      ⟨"-c copy", "\x7b\x7bname\x7d\x7d.\x7b\x7bext\x7d\x7d"⟩
      (fun _ => ⟨true, true, some ⟨true, ""⟩⟩)
      = MainResult.fatal "Pattern syntax error" 1 ∧
    (mainResult (GlobResult.ok [Except.ok "d/e.mp4", Except.ok "f/g.mp4"])
      ⟨"-c copy", "out/\x7b\x7bname\x7d\x7d.\x7b\x7bext\x7d\x7d"⟩
      (fun _ => ⟨false, false, some ⟨false, "ffmpeg exploded"⟩⟩)).isCompleted
      = true := by
  exact ⟨rfl, rfl, rfl⟩

/-- C6 (confirmed): every external-tool invocation is classified into
exactly three terminal per-job cases — success status gives `Success`,
nonzero status gives `ToolFailure` with the captured stderr text, and a
launch failure gives `ToolUnavailable` — and in every case the worker
proceeds to the next path without aborting the batch. -/
theorem tool_outcome_classified (cfg : Config) (env : JobEnv) (path : String)
    (t : JobTrace) (h : processPath cfg env path = some t) :
    (env.toolResult = none → t.outcome = JobOutcome.toolUnavailable) ∧
    (∀ out, env.toolResult = some out → out.success = true →
      ∃ fn, expandTemplate cfg.output path = some fn ∧
        t.outcome = JobOutcome.success fn) ∧
    (∀ out, env.toolResult = some out → out.success = false →
      t.outcome = JobOutcome.toolFailure out.stderrText) ∧
    (∀ envs rest, envs path = env →
      runJobs cfg envs (path :: rest) = (runJobs cfg envs rest).map (t :: ·)) := by
  obtain ⟨fn, hE, ht⟩ := processPath_some h
  subst ht
  refine ⟨?_, ?_, ?_, ?_⟩
  · intro h0
    simp [h0]
  · intro out ho hs
    exact ⟨fn, hE, by simp [ho, hs]⟩
  · intro out ho hs
    simp [ho, hs]
  · intro envs rest he
    exact runJobs_cons cfg envs path rest _ (by rw [he]; exact h)

/-- C6 witness: a tool run exiting nonzero with stderr `boom` yields a
`ToolFailure "boom"` outcome and the batch continues. -/
theorem tool_outcome_classified_witness :
    JobTrace.outcome sampleFailTrace = JobOutcome.toolFailure "boom" ∧
    runJobs ⟨"-c:v libx264", "out/\x7b\x7bname\x7d\x7d.\x7b\x7bext\x7d\x7d"⟩
      (fun _ => ⟨true, true, some ⟨false, "boom"⟩⟩) ["x/y.mp4"]
      = some [sampleFailTrace] := by
  have h := tool_outcome_classified
    ⟨"-c:v libx264", "out/\x7b\x7bname\x7d\x7d.\x7b\x7bext\x7d\x7d"⟩
    ⟨true, true, some ⟨false, "boom"⟩⟩ "x/y.mp4" sampleFailTrace (by decide)
  refine ⟨h.2.2.1 ⟨false, "boom"⟩ rfl rfl, ?_⟩
  have h2 := h.2.2.2 (fun _ => ⟨true, true, some ⟨false, "boom"⟩⟩) [] rfl
  rw [h2]
  rfl

/-- C7 (confirmed): every job invokes the external tool `ffmpeg` with the
fixed argument shape `[input-flag, input-path, ...option-tokens,
output-path]`, where the option tokens are the raw option string split on
single spaces and the computed output path is the final positional
argument, and both stdout and stderr of the subprocess are captured. -/
theorem tool_argument_shape (cfg : Config) (env : JobEnv) (path : String)
    (t : JobTrace) (h : processPath cfg env path = some t) :
    ∃ fn, expandTemplate cfg.output path = some fn ∧
      t.toolProgram = "ffmpeg" ∧
      t.toolInvocation = some (["-i", path] ++ splitSpaces cfg.ffmpegOptions ++ [fn]) ∧
      t.stdoutCaptured = true ∧
      t.stderrCaptured = true := by
  obtain ⟨fn, hE, ht⟩ := processPath_some h
  subst ht
  exact ⟨fn, hE, rfl, rfl, rfl, rfl⟩

/-- C7 witness: a concrete job builds exactly the argument vector
`-i a/b/c.mp4 -c:v libx264 out/c.mp4` with both streams captured. -/
theorem tool_argument_shape_witness :
    JobTrace.toolProgram sampleShapeTrace = "ffmpeg" ∧
    JobTrace.toolInvocation sampleShapeTrace
      = some (["-i", "a/b/c.mp4"] ++ splitSpaces "-c:v libx264" ++ ["out/c.mp4"]) ∧
    JobTrace.stdoutCaptured sampleShapeTrace = true ∧
    JobTrace.stderrCaptured sampleShapeTrace = true := by
  have h := tool_argument_shape
    ⟨"-c:v libx264", "out/\x7b\x7bname\x7d\x7d.\x7b\x7bext\x7d\x7d"⟩
    ⟨true, true, some ⟨true, ""⟩⟩ "a/b/c.mp4" sampleShapeTrace (by decide)
  obtain ⟨fn, hfn, hprog, hargv, hso, hse⟩ := h
  have hv : expandTemplate "out/\x7b\x7bname\x7d\x7d.\x7b\x7bext\x7d\x7d" "a/b/c.mp4"
      = some "out/c.mp4" := by decide
  have hfneq : fn = "out/c.mp4" := Option.some.inj (hfn.symm.trans hv)
  subst hfneq
  exact ⟨hprog, hargv, hso, hse⟩

/-- C9 (confirmed): directory creation is idempotent for the output
directory — after a successful run the directory exists, so a second run
short-circuits on the exists check and succeeds — and an already-exists
outcome of `create_dir_all` (including one produced concurrently between
the exists check and the call) is success, not an error. -/
theorem dir_creation_idempotent (fs : FS) (p : String)
    (h : (ensureDir fs p).2 = true) :
    ensureDir (ensureDir fs p).1 p = ((ensureDir fs p).1, true) ∧
    (p ∈ fs.dirs → ensureDir fs p = (fs, true)) ∧
    (p ∈ fs.dirs → createDirAll fs p = (fs, true)) := by
  by_cases hd : p ∈ fs.dirs
  · refine ⟨?_, fun _ => ?_, fun _ => ?_⟩ <;> simp [ensureDir, createDirAll, hd]
  · by_cases hrf : p ∈ fs.refused
    · exfalso
      simp [ensureDir, createDirAll, hd, hrf] at h
    · refine ⟨?_, fun hm => absurd hm hd, fun hm => absurd hm hd⟩
      have h1 : (ensureDir fs p).1 = { fs with dirs := p :: fs.dirs } := by
        simp [ensureDir, createDirAll, hd, hrf]
      rw [h1]
      simp [ensureDir, List.mem_cons]

/-- C9 witness: creating `out` against a filesystem that already has it
succeeds, and doing it again succeeds again. -/
theorem dir_creation_idempotent_witness :
    ensureDir (ensureDir ⟨["out"], []⟩ "out").1 "out"
      = ((ensureDir (⟨["out"], []⟩ : FS) "out").1, true) ∧
    ("out" ∈ FS.dirs ⟨["out"], []⟩ →
      ensureDir (⟨["out"], []⟩ : FS) "out" = (⟨["out"], []⟩, true)) ∧
    ("out" ∈ FS.dirs ⟨["out"], []⟩ →
      createDirAll (⟨["out"], []⟩ : FS) "out" = (⟨["out"], []⟩, true)) :=
  dir_creation_idempotent ⟨["out"], []⟩ "out" (by decide)

/-- C10 (confirmed): during path discovery, glob entries that error while
iterating are silently discarded — discovery never fails for them and the
work queue holds exactly the successfully-resolved matches (membership
and multiplicity) — while a malformed pattern itself is fatal with exit
code 1. -/
theorem glob_iteration_errors_dropped (entries : List (Except String String))
    (msg : String) :
    (discover (GlobResult.ok entries)).isOk = true ∧
    (∀ l, discover (GlobResult.ok entries) = Except.ok l →
      ∀ p : String, (p ∈ l ↔ Except.ok p ∈ entries) ∧
        l.count p = entries.count (Except.ok p)) ∧
    discover (GlobResult.patternErr msg) = Except.error (msg, 1) := by
  refine ⟨rfl, ?_, rfl⟩
  intro l hl p
  have hl' : entries.filterMap Except.toOption = l := by
    simpa [discover] using hl
  subst hl'
  constructor
  · rw [List.mem_filterMap]
    constructor
    · rintro ⟨a, ha, hta⟩
      cases a with
      | ok q =>
        simp [Except.toOption] at hta
        subst hta
        exact ha
      | error m => simp [Except.toOption] at hta
    · intro hmem
      exact ⟨Except.ok p, hmem, rfl⟩
  · exact count_filterMap_toOption entries p

/-- C10 witness: an erroring glob entry between two matches is dropped,
discovery stays non-fatal, and the queue holds the two matches exactly. -/
theorem glob_iteration_errors_dropped_witness :
    (discover (GlobResult.ok
      [Except.ok "a.mp4", Except.error "io error", Except.ok "b.mp4"])).isOk = true ∧
    ("b.mp4" ∈ ["a.mp4", "b.mp4"] ↔ Except.ok "b.mp4" ∈
      [Except.ok "a.mp4", Except.error "io error", Except.ok "b.mp4"]) ∧
    (["a.mp4", "b.mp4"] : List String).count "b.mp4"
      = [Except.ok "a.mp4", Except.error "io error",
          Except.ok "b.mp4"].count (Except.ok "b.mp4") ∧
    discover (GlobResult.patternErr "bad pattern")
      = Except.error ("bad pattern", 1) := by
  have h := glob_iteration_errors_dropped
    [Except.ok "a.mp4", Except.error "io error", Except.ok "b.mp4"] "bad pattern"
  have h2 := h.2.1 ["a.mp4", "b.mp4"] rfl "b.mp4"
  exact ⟨h.1, h2.1, h2.2, h.2.2⟩

end Mtc
